import Mathlib

/-!
Verification development for the vscode-git-copilot-tools extension core
(`githubService.ts`, `types.ts`, `extension.ts`).  The TypeScript data model
and the pure/stateful logic of the claims are shallowly embedded below;
network requests are abstracted as explicit outcome values, the VS Code
configuration as an explicit record, and the in-memory `Map` cache as an
association list with `Map.set` replace-semantics.
-/

namespace GitCopilotTools

/-! ### Executable models of the JavaScript string built-ins

The embeddings below use structurally recursive character-list versions of
`trim`, `includes`, `split('/')`-last-segment and trailing-slash stripping, so
that every definition evaluates inside the kernel on concrete inputs. -/

/-- ASCII whitespace as trimmed by `String.prototype.trim`. -/
def isJsSpace (c : Char) : Bool :=
  c == ' ' || c == '\t' || c == '\n' || c == '\r' || c == '\x0b' || c == '\x0c'

/-- JavaScript `s.trim()`. -/
def jsTrim (s : String) : String :=
  ⟨((s.data.dropWhile isJsSpace).reverse.dropWhile isJsSpace).reverse⟩

/-- Character-list substring search backing `jsIncludes`. -/
def charContains (s pat : List Char) : Bool :=
  match s with
  | [] => pat.isEmpty
  | _ :: rest => pat.isPrefixOf s || charContains rest pat

/-- `CopilotCategory` enum from `types.ts` (string enum with five values). -/
inductive CopilotCategory
  | plugins
  | instructions
  | prompts
  | agents
  | skills
deriving DecidableEq, Repr

/-- The string value carried by each `CopilotCategory` enum member
(`'plugins'`, `'instructions'`, ...); in TS the enum member *is* this string. -/
def categoryName : CopilotCategory → String
  | .plugins => "plugins"
  | .instructions => "instructions"
  | .prompts => "prompts"
  | .agents => "agents"
  | .skills => "skills"

/-- One entry of a `FolderMapping`: in TS a `Partial Record` slot is either
absent (`undefined`), `null` (category excluded), or a string path. -/
inductive MappingVal
  | absent
  | excluded
  | path (s : String)
deriving DecidableEq, Repr

/-- `FolderMapping` from `types.ts`: a partial map from the five categories to
`string | null`; modelled as one slot per category. -/
structure FolderMapping where
  plugins : MappingVal := .absent
  instructions : MappingVal := .absent
  prompts : MappingVal := .absent
  agents : MappingVal := .absent
  skills : MappingVal := .absent
deriving DecidableEq, Repr

/-- `folderMappings[category]` lookup. -/
def FolderMapping.get (fm : FolderMapping) : CopilotCategory → MappingVal
  | .plugins => fm.plugins
  | .instructions => fm.instructions
  | .prompts => fm.prompts
  | .agents => fm.agents
  | .skills => fm.skills

/-- `RepoSource` from `types.ts`. -/
structure RepoSource where
  owner : String
  repo : String
  label : Option String := none
  baseUrl : Option String := none
  folderMappings : Option FolderMapping := none
deriving DecidableEq, Repr

/-- The `type` field of a GitHub contents entry: `'file' | 'dir'`. -/
inductive EntryType
  | file
  | dir
deriving DecidableEq, Repr

/-- `GitHubFile` from `types.ts`. -/
structure GitHubFile where
  name : String
  path : String
  download_url : String := ""
  size : Nat := 0
  type : EntryType
  sha : Option String := none
  repo : Option RepoSource := none
  displayName : Option String := none
deriving DecidableEq, Repr

/-- `resolveContentPath` from `types.ts` (lines 117-135): resolve the API
content path for a category, `none` meaning the category is excluded and the
empty string meaning the repository root. -/
def resolveContentPath (repo : RepoSource) (category : CopilotCategory) : Option String :=
  match repo.folderMappings with
  | some fm =>
    match fm.get category with
    | .excluded => none
    | .path s =>
      if s = "root" then some ""
      else if jsTrim s ≠ "" then some (jsTrim s)
      else some (categoryName category)
    | .absent => some (categoryName category)
  | none => some (categoryName category)

/-- The mapping value `folderMappings[category]` seen through the optional
`folderMappings` field (`none` when the repo has no mapping object at all). -/
def mappingAt (repo : RepoSource) (category : CopilotCategory) : Option MappingVal :=
  repo.folderMappings.map (fun fm => fm.get category)

/-! ## URL construction and TLS policy (`githubService.ts`) -/

/-- JavaScript `s.includes(pat)` (substring containment). -/
def jsIncludes (s pat : String) : Bool :=
  charContains s.data pat.data

/-- JavaScript `baseUrl.replace(/\/$/, '')`: drop a single trailing slash. -/
def stripTrailingSlash (s : String) : String :=
  if s.data.getLast? = some '/' then ⟨s.data.dropLast⟩ else s

/-- `GitHubService.buildApiUrlForPath` (lines 814-822): contents-API URL for a
repo-relative path; the empty path means the repository root. -/
def buildApiUrlForPath (repo : RepoSource) (path : String) : String :=
  let contentsSuffix := if path ≠ "" then "/contents/" ++ path else "/contents"
  match repo.baseUrl with
  | some b =>
      stripTrailingSlash b ++ "/api/v3/repos/" ++ repo.owner ++ "/" ++ repo.repo ++ contentsSuffix
  | none =>
      "https://api.github.com/repos/" ++ repo.owner ++ "/" ++ repo.repo ++ contentsSuffix

/-- The TLS-relevant fields of an `https.Agent` built by `createHttpsAgent`. -/
structure AgentConfig where
  rejectUnauthorized : Bool
  checkServerIdentityDisabled : Bool
deriving DecidableEq, Repr

/-- The `vscode-git-copilot-tools` workspace configuration values read by the
service.  `cacheTimeout` is the setting documented in README/configuration.md;
whether the code ever reads it is part of what is verified below. -/
structure Config where
  enableGithubAuth : Bool := true
  allowInsecureEnterpriseCerts : Bool := false
  enterpriseToken : Option String := none
  cacheTimeout : Nat := 3600000
deriving DecidableEq, Repr

/-- `GitHubService.createHttpsAgent` (lines 148-178): returns an agent only for
non-`github.com` URLs; `rejectUnauthorized` is `false` only when the user opted
in to `allowInsecureEnterpriseCerts`.  For public-host URLs it returns
`undefined` (axios default validation). -/
def createHttpsAgent (url : String) (cfg : Config) : Option AgentConfig :=
  let isEnterprise := !(jsIncludes url "github.com")
  if isEnterprise && cfg.allowInsecureEnterpriseCerts then
    some { rejectUnauthorized := false, checkServerIdentityDisabled := true }
  else if isEnterprise then
    some { rejectUnauthorized := true, checkServerIdentityDisabled := false }
  else
    none

/-- The TLS decisions `getFiles`/`getFilesByRepo` make for one listing request
(lines 272-299 / 425-467): the agent is built only when the repo is enterprise
(`!!repo.baseUrl`), and the process-wide `NODE_TLS_REJECT_UNAUTHORIZED = '0'`
override is applied only when enterprise *and* the insecure opt-in is set. -/
structure RequestTls where
  httpsAgent : Option AgentConfig
  envOverride : Bool
deriving DecidableEq, Repr

/-- TLS configuration of one category-listing request in `getFiles` /
`getFilesByRepo`, as a function of the repo, the configuration and the
resolved content path. -/
def listingRequestTls (repo : RepoSource) (cfg : Config) (contentPath : String) : RequestTls :=
  let apiUrl := buildApiUrlForPath repo contentPath
  let isEnterprise := repo.baseUrl.isSome
  { httpsAgent := if isEnterprise then createHttpsAgent apiUrl cfg else none
    envOverride := isEnterprise && cfg.allowInsecureEnterpriseCerts }

/-- A request runs with certificate validation disabled iff the global env
override is active or its agent was built with `rejectUnauthorized: false`. -/
def tlsValidationDisabled (r : RequestTls) : Bool :=
  r.envOverride ||
    (match r.httpsAgent with
     | some a => !a.rejectUnauthorized
     | none => false)

/-- Trace of the process-wide `NODE_TLS_REJECT_UNAUTHORIZED` flag around one
insecure enterprise request (`getFiles` lines 296-310, `getFileContent`
lines 575-589). -/
structure TlsTrace where
  envDuringRequest : Option String
  envAfter : Option String
deriving DecidableEq, Repr

/-- The `try/finally` pattern: save the original flag, set it to `'0'`, run the
single request, then in the `finally` block delete the variable if it was
previously unset or restore the saved value otherwise.  The `finally` runs on
both the success and the throw path, and a thrown error propagates unchanged;
`request` observes the overridden environment. -/
def runWithTlsOverride {α : Type} (originalEnv : Option String)
    (request : Option String → Except String α) : Except String α × TlsTrace :=
  let envDuring : Option String := some "0"
  let result := request envDuring
  let envAfter : Option String :=
    match originalEnv with
    | none => none
    | some v => some v
  (result, { envDuringRequest := envDuring, envAfter := envAfter })

/-! ## Cache and category listings (`githubService.ts`) -/

/-- `GitHubService.CACHE_DURATION = 60 * 60 * 1000` (line 11): the hard-coded
cache TTL in milliseconds. -/
def CACHE_DURATION : Nat := 60 * 60 * 1000

/-- `CacheEntry` from `types.ts`. -/
structure CacheEntry where
  data : List GitHubFile
  timestamp : Nat
  category : CopilotCategory
  repo : RepoSource
deriving DecidableEq, Repr

/-- The `Map<string, CacheEntry>` cache, as an association list. -/
def Cache := List (String × CacheEntry)

/-- `Map.get`. -/
def cacheGet (cache : Cache) (k : String) : Option CacheEntry :=
  match cache with
  | [] => none
  | (k', e) :: rest => if k' = k then some e else cacheGet rest k

/-- `Map.set` (replace an existing key, otherwise append). -/
def cacheSet (cache : Cache) (k : String) (e : CacheEntry) : Cache :=
  match cache with
  | [] => [(k, e)]
  | (k', e') :: rest => if k' = k then (k, e) :: rest else (k', e') :: cacheSet rest k e

/-- `repoKey` = `` `${repo.baseUrl || 'github.com'}/${repo.owner}/${repo.repo}` ``. -/
def repoKey (repo : RepoSource) : String :=
  (repo.baseUrl.getD "github.com") ++ "/" ++ repo.owner ++ "/" ++ repo.repo

/-- `cacheKey` = `` `${repoKey}|${category}` ``. -/
def cacheKeyOf (repo : RepoSource) (category : CopilotCategory) : String :=
  repoKey repo ++ "|" ++ categoryName category

/-- Outcome of a single HTTP request, abstracting axios: a successful payload,
an HTTP error response carrying a status code, or a non-HTTP network error. -/
inductive HttpOutcome (α : Type)
  | success (data : α)
  | httpError (status : Nat)
  | netError (msg : String)

/-- The type filter applied to every category listing (`getFiles` lines
344-353, `getFilesByRepo` lines 512-521): Skills and Plugins keep only
directory entries, all other categories keep only file entries. -/
def filterByCategory (category : CopilotCategory) (files : List GitHubFile) : List GitHubFile :=
  files.filter fun f =>
    match category with
    | .skills => f.type == .dir
    | .plugins => f.type == .dir
    | _ => f.type == .file

/-- Post-filter tagging `.map(f => ({ ...f, repo }))`: the listing entries that
are cached and merged. -/
def processListing (repo : RepoSource) (category : CopilotCategory)
    (raw : List GitHubFile) : List GitHubFile :=
  (filterByCategory category raw).map fun f => { f with repo := some repo }

/-- Result of one `getFilesByRepo` call: the returned value (or thrown error),
the cache afterwards, and how many network listing requests were issued. -/
structure FetchRun where
  result : Except String (List GitHubFile)
  cache : Cache
  fetchCount : Nat

/-- The fetch-and-store path of `getFilesByRepo` (lines 437-547), taken on a
cache miss or an expired entry: issue the request, filter/tag the data, cache
it under the repo|category key with the current timestamp.  A 404 response
returns an empty array (and caches nothing); other failures are thrown wrapped
with repo/category context. -/
def getFilesByRepoFetch (cache : Cache) (now : Nat) (repo : RepoSource)
    (category : CopilotCategory) (network : HttpOutcome (List GitHubFile)) : FetchRun :=
  match network with
  | .success raw =>
    let files := processListing repo category raw
    let entry : CacheEntry := { data := files, timestamp := now, category := category, repo := repo }
    { result := .ok files, cache := cacheSet cache (cacheKeyOf repo category) entry, fetchCount := 1 }
  | .httpError status =>
    if status = 404 then
      { result := .ok [], cache := cache, fetchCount := 1 }
    else
      { result := .error ("Failed to load " ++ categoryName category ++ " from " ++
          repo.owner ++ "/" ++ repo.repo ++ ": HTTP " ++ toString status)
        cache := cache, fetchCount := 1 }
  | .netError msg =>
    { result := .error ("Failed to load " ++ categoryName category ++ " from " ++
        repo.owner ++ "/" ++ repo.repo ++ ": " ++ msg)
      cache := cache, fetchCount := 1 }

/-- `GitHubService.getFilesByRepo` (lines 404-548) with the network abstracted
as an explicit outcome: resolve the content path (`null` ⇒ excluded, empty
result, no request); serve a cache entry younger than `CACHE_DURATION` without
fetching; otherwise issue exactly one request via `getFilesByRepoFetch`.
The TTL check uses the `CACHE_DURATION` constant only — no configuration value
enters it.  (The interactive auth-retry path is not modelled: it re-issues the
same request once and does not change the cache/TTL logic.) -/
def getFilesByRepo (cache : Cache) (now : Nat) (repo : RepoSource)
    (category : CopilotCategory) (forceRefresh : Bool)
    (network : HttpOutcome (List GitHubFile)) : FetchRun :=
  match resolveContentPath repo category with
  | none => { result := .ok [], cache := cache, fetchCount := 0 }
  | some _ =>
    let key := cacheKeyOf repo category
    match cacheGet cache key with
    | some entry =>
      if !forceRefresh && now - entry.timestamp < CACHE_DURATION then
        { result := .ok entry.data, cache := cache, fetchCount := 0 }
      else
        getFilesByRepoFetch cache now repo category network
    | none =>
      getFilesByRepoFetch cache now repo category network

/-! ## Filename dedup in `getFiles` (lines 376-398) -/

/-- Number of occurrences of a filename in the merged list — the value the
first pass accumulates in `fileNameCounts`. -/
def nameCount (files : List GitHubFile) (n : String) : Nat :=
  (files.filter fun f => f.name == n).length

/-- Membership in `duplicateNames`: a name is added exactly when it is seen
again after its first occurrence, i.e. when it occurs at least twice. -/
def isDuplicateName (files : List GitHubFile) (n : String) : Bool :=
  2 ≤ nameCount files n

/-- The second pass of the dedup block, per file: duplicates with a `repo`
field get `"{name} ({owner}/{repo})"`, everything else gets the plain name. -/
def labelFile (files : List GitHubFile) (f : GitHubFile) : GitHubFile :=
  match f.repo with
  | some r =>
    if isDuplicateName files f.name then
      { f with displayName := some (f.name ++ " (" ++ r.owner ++ "/" ++ r.repo ++ ")") }
    else
      { f with displayName := some f.name }
  | none => { f with displayName := some f.name }

/-- The dedup block of `getFiles` applied to the merged `allFiles` list. -/
def assignDisplayNames (files : List GitHubFile) : List GitHubFile :=
  files.map (labelFile files)

/-! ## Single-file fetches (`getFileContent`, `getFileContentByPath`) -/

/-- The object the GitHub Contents API returns for a single file path.  The
base64 decoding step is elided: `content` holds the decoded text when the API
inlined the body (files ≤ 1 MB), `none` otherwise. -/
structure ApiFileData where
  type : String
  content : Option String
  download_url : Option String
  sha : String := ""
  size : Nat := 0
deriving DecidableEq, Repr

/-- The record `getFileContentByPath` resolves to. -/
structure FileFetchResult where
  content : String
  download_url : Option String
  sha : String
  size : Nat
deriving DecidableEq, Repr

/-- `GitHubService.getFileContent` (lines 550-598): fetch a raw download URL;
any failure is rethrown as `Failed to fetch file content: ...`. -/
def getFileContent (network : HttpOutcome String) : Except String String :=
  match network with
  | .success body => .ok body
  | .httpError status => .error ("Failed to fetch file content: HTTP " ++ toString status)
  | .netError msg => .error ("Failed to fetch file content: " ++ msg)

/-- `GitHubService.getFileContentByPath` (lines 601-675): fetch one file by
exact repo-relative path.  An inline body is returned directly; a file with no
inline body is fetched again through its `download_url` (`rawFetch`); anything
else — including *every* HTTP error status, 404 included — is rethrown as
`Failed to fetch file content for path "..." : ...`. -/
def getFileContentByPath (filePath : String) (network : HttpOutcome ApiFileData)
    (rawFetch : HttpOutcome String) : Except String FileFetchResult :=
  match network with
  | .success d =>
    if d.type = "file" && d.content.isSome then
      .ok { content := d.content.getD "", download_url := d.download_url, sha := d.sha, size := d.size }
    else if d.type = "file" && d.download_url.isSome then
      match getFileContent rawFetch with
      | .ok body =>
        .ok { content := body, download_url := d.download_url, sha := d.sha, size := d.size }
      | .error e =>
        .error ("Failed to fetch file content for path \"" ++ filePath ++ "\": " ++ e)
    else
      .error ("Failed to fetch file content for path \"" ++ filePath ++ "\": Error: Path \"" ++
        filePath ++ "\" is not a file or has no content")
  | .httpError status =>
    .error ("Failed to fetch file content for path \"" ++ filePath ++ "\": HTTP " ++ toString status)
  | .netError msg =>
    .error ("Failed to fetch file content for path \"" ++ filePath ++ "\": " ++ msg)

/-! ## Plugin manifest parsing (`parsePluginJson`, lines 678-742) -/

/-- JSON values, as produced by `JSON.parse`. -/
inductive Json
  | null
  | bool (b : Bool)
  | num (n : Int)
  | str (s : String)
  | arr (xs : List Json)
  | obj (fields : List (String × Json))

/-- First binding of a key in an object's field list. -/
def lookupField (fields : List (String × Json)) (k : String) : Option Json :=
  match fields with
  | [] => none
  | (k', v) :: rest => if k' = k then some v else lookupField rest k

/-- JavaScript property access `value[k]` on a parsed JSON value: only objects
have named fields. -/
def getField (j : Json) (k : String) : Option Json :=
  match j with
  | .obj fields => lookupField fields k
  | _ => none

/-- The test `!value || typeof value !== 'object'` fails (i.e. the value passes
as an object) exactly for JSON objects and arrays: `null` is falsy, and
booleans, numbers and strings have a different `typeof`. -/
def jsTruthyObject (j : Json) : Bool :=
  match j with
  | .obj _ => true
  | .arr _ => true
  | _ => false

/-- A manifest item after validation. -/
structure PluginItem where
  path : String
  kind : String
deriving DecidableEq, Repr

/-- The validated fields of `PluginMetadata` that the downloader consumes. -/
structure PluginMetadata where
  id : String
  name : String
  description : String
  items : List PluginItem
deriving DecidableEq, Repr

/-- `allowedKinds` (line 707). -/
def allowedKinds : List String := ["instruction", "prompt", "agent", "skill"]

/-- Per-item validation inside the `metadata.items.forEach` (lines 709-728):
object shape, non-blank `path`, non-blank `kind`, `kind` among the allowed
values; the first violation throws with the item's index in the message. -/
def validateItem (idx : Nat) (it : Json) : Except String PluginItem :=
  if !jsTruthyObject it then
    .error ("Invalid plugin.json format: item at index " ++ toString idx ++ " is not an object")
  else
    match getField it "path" with
    | some (.str p) =>
      if jsTrim p = "" then
        .error ("Invalid plugin.json format: item at index " ++ toString idx ++
          " is missing or has an invalid \"path\" field")
      else
        match getField it "kind" with
        | some (.str k) =>
          if jsTrim k = "" then
            .error ("Invalid plugin.json format: item at index " ++ toString idx ++
              " is missing or has an invalid \"kind\" field")
          else if !allowedKinds.contains k then
            .error ("Invalid plugin.json format: item at index " ++ toString idx ++
              " has unsupported \"kind\" value \"" ++ k ++ "\". Allowed kinds are: " ++
              String.intercalate ", " allowedKinds)
          else
            .ok { path := p, kind := k }
        | _ =>
          .error ("Invalid plugin.json format: item at index " ++ toString idx ++
            " is missing or has an invalid \"kind\" field")
    | _ =>
      .error ("Invalid plugin.json format: item at index " ++ toString idx ++
        " is missing or has an invalid \"path\" field")

/-- The `forEach` over `metadata.items`, threading the index. -/
def validateItems (idx : Nat) (items : List Json) : Except String (List PluginItem) :=
  match items with
  | [] => .ok []
  | it :: rest => do
    let v ← validateItem idx it
    let vs ← validateItems (idx + 1) rest
    .ok (v :: vs)

/-- Last path segment of the plugin directory
(`pluginDirPath.split('/')` last element), used to default `id`. -/
def lastPathSegment (dirPath : String) : String :=
  ⟨(dirPath.data.reverse.takeWhile (fun c => c ≠ '/')).reverse⟩

/-- The validation body of `parsePluginJson` (lines 683-736), after the
manifest file has been fetched and `JSON.parse` applied; `parsed = none`
represents a `JSON.parse` failure.  Checks, in source order: object shape,
non-blank `name`, non-blank `description`, then — unconditionally — that
`items` is an array (there is no `agents`/`skills` shorthand branch), then the
per-item checks, and finally the `id` default from the directory name. -/
def parsePluginJsonCore (parsed : Option Json) (pluginDirPath : String) :
    Except String PluginMetadata :=
  match parsed with
  | none => .error "Invalid plugin.json format: not valid JSON"
  | some j =>
    if !jsTruthyObject j then
      .error "Invalid plugin.json format: metadata is missing or not an object"
    else
      match getField j "name" with
      | some (.str n) =>
        if jsTrim n = "" then
          .error "Invalid plugin.json format: missing or invalid \"name\" field"
        else
          match getField j "description" with
          | some (.str d) =>
            if jsTrim d = "" then
              .error "Invalid plugin.json format: missing or invalid \"description\" field"
            else
              match getField j "items" with
              | some (.arr rawItems) => do
                let items ← validateItems 0 rawItems
                let id :=
                  match getField j "id" with
                  | some (.str s) => if s = "" then lastPathSegment pluginDirPath else s
                  | _ => lastPathSegment pluginDirPath
                .ok { id := id, name := n, description := d, items := items }
              | _ =>
                .error "Invalid plugin.json format: missing or invalid \"items\" array"
          | _ =>
            .error "Invalid plugin.json format: missing or invalid \"description\" field"
      | _ =>
        .error "Invalid plugin.json format: missing or invalid \"name\" field"

/-- `GitHubService.parsePluginJson` (lines 678-742): the outer `catch` wraps
every validation failure as `Failed to parse plugin.json: ...`. -/
def parsePluginJson (parsed : Option Json) (pluginDirPath : String) :
    Except String PluginMetadata :=
  match parsePluginJsonCore parsed pluginDirPath with
  | .ok m => .ok m
  | .error e => .error ("Failed to parse plugin.json: " ++ e)

/-! ## Plugin bundle download (`downloadCopilotItem`, `extension.ts` 895-1103) -/

/-- `KIND_TO_CATEGORY` from `types.ts`: maps a plugin item kind to the local
category folder, `none` for an unknown kind. -/
def KIND_TO_CATEGORY (kind : String) : Option CopilotCategory :=
  if kind = "instruction" then some .instructions
  else if kind = "prompt" then some .prompts
  else if kind = "agent" then some .agents
  else if kind = "skill" then some .skills
  else none

/-- Aggregate counters of the per-item download loop. -/
structure BundleResult where
  downloadedCount : Nat
  errorCount : Nat
  failedFiles : List String
deriving DecidableEq, Repr

/-- The `for (const pluginItem of pluginItems)` loop (lines 900-986), indexed
from `idx`.  Per item: an unknown `kind` pushes
`"{path} (unknown kind: {kind})"` onto `failedFiles` and counts an error; an
item whose fetch/write work throws (abstracted by the `itemOk` oracle, indexed
by position) is caught, its path pushed onto `failedFiles`, and counted as an
error; otherwise `downloadedCount` is incremented.  No failure aborts the
remaining items. -/
def downloadPluginItems (itemOk : Nat → Bool) (idx : Nat) :
    List PluginItem → BundleResult
  | [] => { downloadedCount := 0, errorCount := 0, failedFiles := [] }
  | it :: rest =>
    let r := downloadPluginItems itemOk (idx + 1) rest
    match KIND_TO_CATEGORY it.kind with
    | none =>
      { r with errorCount := r.errorCount + 1
               failedFiles := (it.path ++ " (unknown kind: " ++ it.kind ++ ")") :: r.failedFiles }
    | some _ =>
      if itemOk idx then
        { r with downloadedCount := r.downloadedCount + 1 }
      else
        { r with errorCount := r.errorCount + 1
                 failedFiles := it.path :: r.failedFiles }

/-- One whole plugin-bundle download after the user confirmed. -/
structure PluginDownloadRun where
  res : BundleResult
  manifestSaveAttempted : Bool
  manifestSaved : Bool
  readmeNoteSaveAttempted : Bool
  readmeSaved : Bool
  noteSaved : Bool
deriving DecidableEq, Repr

/-- The plugin branch of `downloadCopilotItem` after confirmation (lines
899-1103): run the per-item loop, then — unconditionally, regardless of how
many items failed — attempt the best-effort persistence steps, each wrapped in
its own `try/catch` (a failure is logged, never rethrown, and never touches
the counters): the local `plugin.json` copy (`manifestWriteOk` oracle), and
the plugin-files block that writes `README.md` when present and the generated
companion NOTE file (`pluginFilesOk` oracle for the whole block,
`readmePresent` for whether the remote bundle has a README). -/
def downloadPluginBundle (itemOk : Nat → Bool) (manifestWriteOk : Bool)
    (pluginFilesOk : Bool) (readmePresent : Bool)
    (items : List PluginItem) : PluginDownloadRun :=
  let res := downloadPluginItems itemOk 0 items
  { res := res
    manifestSaveAttempted := true
    manifestSaved := manifestWriteOk
    readmeNoteSaveAttempted := true
    readmeSaved := pluginFilesOk && readmePresent
    noteSaved := pluginFilesOk }

/-! ## Concrete inputs used by the witnesses -/

/-- A public-host repository source. -/
def demoRepoA : RepoSource := { owner := "alice", repo := "tools" }

/-- A second public-host repository source. -/
def demoRepoB : RepoSource := { owner := "bob", repo := "kit" }

/-- A prompt file present in both demo repositories (name collision). -/
def demoDup1 : GitHubFile :=
  { name := "x.md", path := "prompts/x.md", type := .file, repo := some demoRepoA }

/-- The colliding entry from the second repository. -/
def demoDup2 : GitHubFile :=
  { name := "x.md", path := "prompts/x.md", type := .file, repo := some demoRepoB }

/-- A file whose name is unique in the merged set. -/
def demoUniq : GitHubFile :=
  { name := "y.md", path := "prompts/y.md", type := .file, repo := some demoRepoA }

/-- A merged multi-repository result list with one name collision. -/
def demoMerged : List GitHubFile := [demoDup1, demoDup2, demoUniq]

/-- A cache entry for `demoRepoA`'s prompts listing, written at time 0. -/
def demoEntry : CacheEntry :=
  { data := [ { name := "cached.md", path := "prompts/cached.md", type := .file } ]
    timestamp := 0, category := .prompts, repo := demoRepoA }

/-- A cache holding exactly `demoEntry`. -/
def demoCache : Cache := [(cacheKeyOf demoRepoA .prompts, demoEntry)]

/-- A five-item plugin manifest item list (all kinds valid). -/
def demoItems : List PluginItem :=
  [ { path := "instructions/a.instructions.md", kind := "instruction" },
    { path := "prompts/b.prompt.md", kind := "prompt" },
    { path := "skills/broken", kind := "skill" },
    { path := "agents/c.agent.md", kind := "agent" },
    { path := "skills/ok", kind := "skill" } ]

/-- Failure oracle: the item at loop index 2 throws, everything else succeeds. -/
def demoItemOk : Nat → Bool := fun i => !(i == 2)

/-- A legacy manifest with one valid `items` entry. -/
def manifestLegacyItems : Json := .obj
  [ ("name", .str "Multi-Kind Plugin"),
    ("description", .str "Plugin with legacy items"),
    ("items", .arr [ .obj [("path", .str "prompts/sample.prompt.md"), ("kind", .str "prompt")] ]) ]

/-- A manifest with `name`, `description` and an empty `items` array. -/
def manifestItemsEmpty : Json := .obj
  [ ("name", .str "Test Plugin"),
    ("description", .str "A test plugin"),
    ("items", .arr []) ]

/-- A manifest with neither `items` nor any shorthand array. -/
def manifestNoItemSet : Json := .obj
  [ ("name", .str "Test Plugin"),
    ("description", .str "A test plugin") ]

/-- The shorthand-only manifest from the repository's own test
`should parse current format with only skills (no agents)`. -/
def manifestShorthandOnly : Json := .obj
  [ ("name", .str "Skills Only Plugin"),
    ("description", .str "A plugin with only skills"),
    ("skills", .arr [ .str "./skills/my-skill" ]) ]

/-- The shorthand manifest of the spec's expansion example: a manifest at
`plugins/foo` with `skills: ["./skills/bar/"]`. -/
def manifestFooShorthand : Json := .obj
  [ ("name", .str "foo"),
    ("description", .str "Shorthand skills manifest"),
    ("skills", .arr [ .str "./skills/bar/" ]) ]

/-! ## Theorems -/

deriving instance DecidableEq for Except

/-- Unpack a successful `mappingAt` lookup into the underlying mapping object. -/
theorem mappingAt_some {repo : RepoSource} {c : CopilotCategory} {v : MappingVal}
    (h : mappingAt repo c = some v) :
    ∃ fm, repo.folderMappings = some fm ∧ fm.get c = v := by
  unfold mappingAt at h
  cases hf : repo.folderMappings with
  | none => rw [hf] at h; cases h
  | some fm =>
    rw [hf] at h
    simp at h
    exact ⟨fm, rfl, h⟩

/-- Claim C3: for every repo and category, `resolveContentPath` returns `none`
when the mapping is `null`, the empty string when it is the literal `"root"`,
the trimmed string when it is a non-blank string, and the category name itself
in every other case (mapping absent, blank, or `folderMappings` absent
entirely).  The function is a pure Lean function of its two arguments, so it
is deterministic and has no network or cache side effects. -/
theorem resolveContentPath_cases (repo : RepoSource) (c : CopilotCategory) :
    (mappingAt repo c = some .excluded → resolveContentPath repo c = none) ∧
    (mappingAt repo c = some (.path "root") → resolveContentPath repo c = some "") ∧
    (∀ s, mappingAt repo c = some (.path s) → s ≠ "root" → jsTrim s ≠ "" →
      resolveContentPath repo c = some (jsTrim s)) ∧
    ((repo.folderMappings = none ∨ mappingAt repo c = some .absent ∨
        (∃ s, mappingAt repo c = some (.path s) ∧ s ≠ "root" ∧ jsTrim s = "")) →
      resolveContentPath repo c = some (categoryName c)) := by
  refine ⟨?_, ?_, ?_, ?_⟩
  · intro h
    obtain ⟨fm, hf, hg⟩ := mappingAt_some h
    simp [resolveContentPath, hf, hg]
  · intro h
    obtain ⟨fm, hf, hg⟩ := mappingAt_some h
    simp [resolveContentPath, hf, hg]
  · intro s h hroot htrim
    obtain ⟨fm, hf, hg⟩ := mappingAt_some h
    simp [resolveContentPath, hf, hg, hroot, htrim]
  · rintro (hf | h | ⟨s, h, hroot, htrim⟩)
    · simp [resolveContentPath, hf]
    · obtain ⟨fm, hf, hg⟩ := mappingAt_some h
      simp [resolveContentPath, hf, hg]
    · obtain ⟨fm, hf, hg⟩ := mappingAt_some h
      simp [resolveContentPath, hf, hg, hroot, htrim]

/-- Witness for C3: the four branches evaluated at concrete repos. -/
theorem resolveContentPath_cases_witness :
    mappingAt { owner := "o", repo := "r", folderMappings := some { agents := .excluded } } .agents = some .excluded ∧
    resolveContentPath { owner := "o", repo := "r", folderMappings := some { agents := .excluded } } .agents = none ∧
    resolveContentPath { owner := "o", repo := "r", folderMappings := some { agents := .path "root" } } .agents = some "" ∧
    resolveContentPath { owner := "o", repo := "r", folderMappings := some { agents := .path " custom/dir " } } .agents = some "custom/dir" ∧
    resolveContentPath { owner := "o", repo := "r" } .agents = some "agents" :=
  ⟨by decide,
   (resolveContentPath_cases _ _).1 (by decide),
   (resolveContentPath_cases _ _).2.1 (by decide),
   (resolveContentPath_cases _ _).2.2.1 " custom/dir " (by decide) (by decide) (by decide),
   (resolveContentPath_cases _ _).2.2.2 (Or.inl rfl)⟩

/-- Claim C9: for every request run under the temporary process-wide TLS
relaxation, after the single request completes the previous value of
`NODE_TLS_REJECT_UNAUTHORIZED` is fully restored — deleted if it was
previously unset, reset to its original value otherwise — and this holds
whatever the request returns, including when it throws (the result is
whatever `request` produced, error included, while `envAfter` equals the
original value). -/
theorem tls_env_restored_after_request {α : Type} (originalEnv : Option String)
    (request : Option String → Except String α) :
    (runWithTlsOverride originalEnv request).2.envAfter = originalEnv ∧
    (runWithTlsOverride originalEnv request).2.envDuringRequest = some "0" ∧
    (runWithTlsOverride originalEnv request).1 = request (some "0") := by
  unfold runWithTlsOverride
  refine ⟨?_, rfl, rfl⟩
  cases originalEnv <;> rfl

/-- Claim C8: certificate validation is disabled for a listing request only
when the repo is an enterprise host (`baseUrl` set) *and* the user enabled the
`allowInsecureEnterpriseCerts` opt-in; for the default public host
(`baseUrl` absent) validation is never disabled under any configuration. -/
theorem tls_disabled_only_enterprise_optin (repo : RepoSource) (cfg : Config) (contentPath : String) :
    (tlsValidationDisabled (listingRequestTls repo cfg contentPath) = true →
       repo.baseUrl.isSome = true ∧ cfg.allowInsecureEnterpriseCerts = true) ∧
    (repo.baseUrl = none → tlsValidationDisabled (listingRequestTls repo cfg contentPath) = false) := by
  unfold tlsValidationDisabled listingRequestTls createHttpsAgent
  cases hb : repo.baseUrl with
  | none => simp
  | some b =>
    by_cases ha : cfg.allowInsecureEnterpriseCerts
    · exact ⟨fun _ => ⟨rfl, ha⟩, fun h => by simp at h⟩
    · simp only [Bool.not_eq_true] at ha
      refine ⟨?_, fun h => by simp at h⟩
      intro hdis
      exfalso
      by_cases hj : jsIncludes (buildApiUrlForPath repo contentPath) "github.com"
      · simp [ha, hj] at hdis
      · simp [ha, hj] at hdis

/-- Witness for C8: an enterprise repo with the opt-in enabled satisfies the
disabled-implies-enterprise-and-opt-in conclusion, and a public repo with the
opt-in enabled still validates certificates. -/
theorem tls_disabled_only_enterprise_optin_witness :
    (({ owner := "o", repo := "r", baseUrl := some "https://ghe.example.corp" } : RepoSource).baseUrl.isSome = true ∧
      ({ allowInsecureEnterpriseCerts := true } : Config).allowInsecureEnterpriseCerts = true) ∧
    tlsValidationDisabled (listingRequestTls { owner := "o", repo := "r" }
        { allowInsecureEnterpriseCerts := true } "prompts") = false :=
  ⟨(tls_disabled_only_enterprise_optin
      { owner := "o", repo := "r", baseUrl := some "https://ghe.example.corp" }
      { allowInsecureEnterpriseCerts := true } "prompts").1 (by decide),
   (tls_disabled_only_enterprise_optin { owner := "o", repo := "r" }
      { allowInsecureEnterpriseCerts := true } "prompts").2 rfl⟩

/-- Two distinct members force a list length of at least two. -/
theorem two_le_length_of_mem_ne {α : Type} {l : List α} {a b : α}
    (ha : a ∈ l) (hb : b ∈ l) (hne : a ≠ b) : 2 ≤ l.length := by
  induction l with
  | nil => cases ha
  | cons x xs ih =>
    rcases List.mem_cons.mp ha with rfl | ha'
    · rcases List.mem_cons.mp hb with rfl | hb'
      · exact absurd rfl hne
      · have h1 : 0 < xs.length := List.length_pos.mpr (List.ne_nil_of_mem hb')
        simp only [List.length_cons]
        omega
    · have h1 : 0 < xs.length := List.length_pos.mpr (List.ne_nil_of_mem ha')
      simp only [List.length_cons]
      omega

/-- Claim C5: in the merged multi-repository result set of `getFiles`, an
entry whose name also occurs in an entry of another repository gets
`displayName = "{name} ({owner}/{repo})"` built from its own repository, and
an entry whose name is unique in the merged set keeps `displayName = name`;
the labelled entry is what the dedup pass puts in the returned list. -/
theorem getFiles_displayName_dedup (files : List GitHubFile) (f : GitHubFile) (r : RepoSource)
    (hmem : f ∈ files) (hrepo : f.repo = some r) :
    ((∃ g ∈ files, g.name = f.name ∧ g.repo ≠ f.repo) →
       (labelFile files f).displayName = some (f.name ++ " (" ++ r.owner ++ "/" ++ r.repo ++ ")")) ∧
    (nameCount files f.name = 1 →
       (labelFile files f).displayName = some f.name) ∧
    labelFile files f ∈ assignDisplayNames files := by
  refine ⟨?_, ?_, List.mem_map_of_mem _ hmem⟩
  · rintro ⟨g, hg, hname, hgr⟩
    have hf2 : f ∈ files.filter (fun x => x.name == f.name) :=
      List.mem_filter.mpr ⟨hmem, by simp⟩
    have hg2 : g ∈ files.filter (fun x => x.name == f.name) :=
      List.mem_filter.mpr ⟨hg, by simp [hname]⟩
    have hne : f ≠ g := fun h => hgr (h ▸ rfl)
    have hcount : 2 ≤ nameCount files f.name :=
      two_le_length_of_mem_ne hf2 hg2 hne
    unfold labelFile
    rw [hrepo]
    simp [isDuplicateName, hcount]
  · intro hc
    have hnd : isDuplicateName files f.name = false := by
      simp [isDuplicateName, hc]
    unfold labelFile
    rw [hrepo]
    simp [hnd]

/-- Witness for C5: with two repos both holding `x.md`, each colliding entry
is labelled with its own repo, while the unique `y.md` keeps its plain name. -/
theorem getFiles_displayName_dedup_witness :
    (labelFile demoMerged demoDup1).displayName = some "x.md (alice/tools)" ∧
    (labelFile demoMerged demoUniq).displayName = some "y.md" :=
  ⟨(getFiles_displayName_dedup demoMerged demoDup1 demoRepoA (by decide) rfl).1
      ⟨demoDup2, by decide, rfl, by decide⟩,
   (getFiles_displayName_dedup demoMerged demoUniq demoRepoA (by decide) rfl).2.1 (by decide)⟩

/-- Looking up a key immediately after `Map.set` on that key yields the new
entry. -/
theorem cacheGet_cacheSet_self (cache : Cache) (k : String) (e : CacheEntry) :
    cacheGet (cacheSet cache k e) k = some e := by
  induction cache with
  | nil => simp [cacheSet, cacheGet]
  | cons p rest ih =>
    obtain ⟨k', e'⟩ := p
    by_cases h : k' = k
    · simp [cacheSet, h, cacheGet]
    · simp [cacheSet, h, cacheGet, ih]

/-- Claim C10: every entry surviving the listing filter has type `dir` for the
skills and plugins categories and type `file` for the agents, instructions and
prompts categories; and the filtered, repo-tagged list is exactly what a
fresh `getFilesByRepo` fetch returns and caches (filtering happens before
caching and merging). -/
theorem listing_type_filter (repo : RepoSource) (c : CopilotCategory) (raw : List GitHubFile) :
    (∀ f ∈ processListing repo c raw,
       ((c = .skills ∨ c = .plugins) → f.type = .dir) ∧
       ((c = .agents ∨ c = .instructions ∨ c = .prompts) → f.type = .file)) ∧
    (∀ cache now,
       (resolveContentPath repo c).isSome = true →
       cacheGet cache (cacheKeyOf repo c) = none →
       (getFilesByRepo cache now repo c false (.success raw)).result =
         .ok (processListing repo c raw) ∧
       cacheGet (getFilesByRepo cache now repo c false (.success raw)).cache (cacheKeyOf repo c) =
         some { data := processListing repo c raw, timestamp := now, category := c, repo := repo }) := by
  constructor
  · intro f hf
    simp only [processListing, filterByCategory, List.mem_map] at hf
    obtain ⟨g, hg, rfl⟩ := hf
    have hg2 := (List.mem_filter.mp hg).2
    cases c <;> simp_all
  · intro cache now hres hnone
    obtain ⟨cp, hcp⟩ := Option.isSome_iff_exists.mp hres
    unfold getFilesByRepo
    simp [hcp, hnone, getFilesByRepoFetch, cacheGet_cacheSet_self]

/-- Witness for C10: a skills listing drops a stray file entry and a prompts
listing drops a stray directory entry. -/
theorem listing_type_filter_witness :
    (∀ f ∈ processListing demoRepoA .skills
        [ { name := "s1", path := "skills/s1", type := .dir },
          { name := "stray.md", path := "skills/stray.md", type := .file } ],
       f.type = EntryType.dir) ∧
    (∀ f ∈ processListing demoRepoA .prompts
        [ { name := "p.md", path := "prompts/p.md", type := .file },
          { name := "sub", path := "prompts/sub", type := .dir } ],
       f.type = EntryType.file) := by
  constructor
  · intro f hf
    exact ((listing_type_filter demoRepoA .skills _).1 f hf).1 (Or.inl rfl)
  · intro f hf
    exact ((listing_type_filter demoRepoA .prompts _).1 f hf).2 (Or.inr (Or.inr rfl))

/-- Claim C7 (as implemented): the cache TTL is the hard-coded
`CACHE_DURATION = 3,600,000` ms — the documented `cacheTimeout` setting never
enters the check.  A `getFilesByRepo` call (forceRefresh `false`) finding an
entry younger than that returns the stored data with no request issued and
leaves the cache untouched; an expired entry triggers exactly one refetch,
and on success the entry is replaced with the fresh data and timestamp. -/
theorem getFilesByRepo_cache_ttl (cache : Cache) (now : Nat) (repo : RepoSource)
    (c : CopilotCategory) (entry : CacheEntry) (network : HttpOutcome (List GitHubFile))
    (hres : (resolveContentPath repo c).isSome = true)
    (hget : cacheGet cache (cacheKeyOf repo c) = some entry) :
    CACHE_DURATION = 3600000 ∧
    (now - entry.timestamp < CACHE_DURATION →
       getFilesByRepo cache now repo c false network =
         { result := .ok entry.data, cache := cache, fetchCount := 0 }) ∧
    (¬ now - entry.timestamp < CACHE_DURATION →
       (getFilesByRepo cache now repo c false network).fetchCount = 1 ∧
       (∀ raw, network = .success raw →
          cacheGet (getFilesByRepo cache now repo c false network).cache (cacheKeyOf repo c) =
            some { data := processListing repo c raw, timestamp := now, category := c, repo := repo })) := by
  obtain ⟨cp, hcp⟩ := Option.isSome_iff_exists.mp hres
  refine ⟨rfl, ?_, ?_⟩
  · intro hvalid
    unfold getFilesByRepo
    simp [hcp, hget, hvalid]
  · intro hexp
    unfold getFilesByRepo
    constructor
    · cases network <;> simp [hcp, hget, hexp, getFilesByRepoFetch]
      case httpError status => by_cases h4 : status = 404 <;> simp [h4]
    · intro raw hraw
      subst hraw
      simp [hcp, hget, hexp, getFilesByRepoFetch, cacheGet_cacheSet_self]

/-- Witness for C7: an entry aged 120,000 ms (beyond any configurable
per-README `cacheTimeout` as low as 60,000) is still served from the cache
with no request, because only the 3,600,000 ms constant governs validity; the
same entry aged two hours triggers exactly one refetch. -/
theorem getFilesByRepo_cache_ttl_witness :
    CACHE_DURATION = 3600000 ∧
    getFilesByRepo demoCache 120000 demoRepoA .prompts false (.httpError 500) =
      { result := .ok demoEntry.data, cache := demoCache, fetchCount := 0 } ∧
    (getFilesByRepo demoCache 7200000 demoRepoA .prompts false (.httpError 500)).fetchCount = 1 :=
  ⟨(getFilesByRepo_cache_ttl demoCache 120000 demoRepoA .prompts demoEntry (.httpError 500)
      (by decide) (by decide)).1,
   (getFilesByRepo_cache_ttl demoCache 120000 demoRepoA .prompts demoEntry (.httpError 500)
      (by decide) (by decide)).2.1 (by decide),
   ((getFilesByRepo_cache_ttl demoCache 7200000 demoRepoA .prompts demoEntry (.httpError 500)
      (by decide) (by decide)).2.2 (by decide)).1⟩

/-- Claim C4: a 404 on a fresh category listing resolves to an empty array
with no exception (and no cache write), whereas a 404 during a single-file
fetch by exact path is rethrown as an error — the two contracts differ. -/
theorem listing404_empty_fileFetch404_error :
    (∀ (cache : Cache) (now : Nat) (repo : RepoSource) (c : CopilotCategory),
       (resolveContentPath repo c).isSome = true →
       cacheGet cache (cacheKeyOf repo c) = none →
       getFilesByRepo cache now repo c false (.httpError 404) =
         { result := .ok [], cache := cache, fetchCount := 1 }) ∧
    (∀ (filePath : String) (rawFetch : HttpOutcome String), ∃ e,
       getFileContentByPath filePath (.httpError 404) rawFetch = .error e) := by
  constructor
  · intro cache now repo c hres hnone
    obtain ⟨cp, hcp⟩ := Option.isSome_iff_exists.mp hres
    unfold getFilesByRepo
    simp [hcp, hnone, getFilesByRepoFetch]
  · intro filePath rawFetch
    exact ⟨_, rfl⟩

/-- Witness for C4: the default repo's agents listing on 404 yields `ok []`,
and a by-path file fetch on 404 yields an error. -/
theorem listing404_empty_fileFetch404_error_witness :
    getFilesByRepo [] 0 { owner := "github", repo := "awesome-copilot" } .agents false (.httpError 404) =
      { result := .ok [], cache := [], fetchCount := 1 } ∧
    (∃ e, getFileContentByPath "prompts/missing.md" (.httpError 404) (.netError "unused") = .error e) :=
  ⟨listing404_empty_fileFetch404_error.1 [] 0 { owner := "github", repo := "awesome-copilot" } .agents
      (by decide) rfl,
   listing404_empty_fileFetch404_error.2 "prompts/missing.md" (.netError "unused")⟩

/-- Every item of the plugin download loop lands in exactly one of the two
counters: downloaded plus errored equals the number of items, whatever fails. -/
theorem downloadPluginItems_total (itemOk : Nat → Bool) :
    ∀ (items : List PluginItem) (idx : Nat),
      (downloadPluginItems itemOk idx items).downloadedCount +
        (downloadPluginItems itemOk idx items).errorCount = items.length := by
  intro items
  induction items with
  | nil => intro idx; simp [downloadPluginItems]
  | cons it rest ih =>
    intro idx
    have hr := ih (idx + 1)
    unfold downloadPluginItems
    cases hk : KIND_TO_CATEGORY it.kind with
    | none => simp only [List.length_cons]; omega
    | some cat =>
      cases ho : itemOk idx <;> simp [ho] <;> omega

/-- Every failed item of the loop is recorded in `failedFiles`: an
unknown-kind item as `"{path} (unknown kind: {kind})"`, a thrown item as its
plain path. -/
theorem downloadPluginItems_failed_mem (itemOk : Nat → Bool) :
    ∀ (items : List PluginItem) (idx i : Nat) (h : i < items.length),
      (KIND_TO_CATEGORY (items.get ⟨i, h⟩).kind = none →
         ((items.get ⟨i, h⟩).path ++ " (unknown kind: " ++ (items.get ⟨i, h⟩).kind ++ ")") ∈
           (downloadPluginItems itemOk idx items).failedFiles) ∧
      ((KIND_TO_CATEGORY (items.get ⟨i, h⟩).kind).isSome = true → itemOk (idx + i) = false →
         (items.get ⟨i, h⟩).path ∈ (downloadPluginItems itemOk idx items).failedFiles) := by
  intro items
  induction items with
  | nil => intro idx i h; exact (Nat.not_lt_zero i (by simp at h)).elim
  | cons it rest ih =>
    intro idx i h
    cases i with
    | zero =>
      constructor
      · intro hk
        have hk' : KIND_TO_CATEGORY it.kind = none := hk
        show (it.path ++ " (unknown kind: " ++ it.kind ++ ")") ∈
          (downloadPluginItems itemOk idx (it :: rest)).failedFiles
        unfold downloadPluginItems
        rw [hk']
        simp
      · intro hk ho
        rw [Nat.add_zero] at ho
        have hk' : (KIND_TO_CATEGORY it.kind).isSome = true := hk
        show it.path ∈ (downloadPluginItems itemOk idx (it :: rest)).failedFiles
        unfold downloadPluginItems
        obtain ⟨cat, hcat⟩ := Option.isSome_iff_exists.mp hk'
        rw [hcat, ho]
        simp
    | succ j =>
      have hj : j < rest.length := by simpa using h
      have harith : idx + (j + 1) = (idx + 1) + j := by omega
      have hrec := ih (idx + 1) j hj
      rw [harith]
      show (KIND_TO_CATEGORY (rest.get ⟨j, hj⟩).kind = none →
         ((rest.get ⟨j, hj⟩).path ++ " (unknown kind: " ++ (rest.get ⟨j, hj⟩).kind ++ ")") ∈
           (downloadPluginItems itemOk idx (it :: rest)).failedFiles) ∧
        ((KIND_TO_CATEGORY (rest.get ⟨j, hj⟩).kind).isSome = true → itemOk (idx + 1 + j) = false →
         (rest.get ⟨j, hj⟩).path ∈ (downloadPluginItems itemOk idx (it :: rest)).failedFiles)
      constructor
      · intro hk
        have hmem := hrec.1 hk
        unfold downloadPluginItems
        cases KIND_TO_CATEGORY it.kind with
        | none => exact List.mem_cons_of_mem _ hmem
        | some cat =>
          by_cases ho : itemOk idx
          · simpa [ho] using hmem
          · simp only [ho, if_false]
            exact List.mem_cons_of_mem _ hmem
      · intro hk ho
        have hmem := hrec.2 hk ho
        unfold downloadPluginItems
        cases KIND_TO_CATEGORY it.kind with
        | none => exact List.mem_cons_of_mem _ hmem
        | some cat =>
          by_cases ho2 : itemOk idx
          · simpa [ho2] using hmem
          · simp only [ho2, if_false]
            exact List.mem_cons_of_mem _ hmem

/-- Claim C6: for a plugin-bundle download with `n` manifest items, every item
contributes to exactly one of the two counters
(`downloadedCount + errorCount = n`); no per-item failure aborts the rest;
each failed item's path appears in the failed-paths list (plain, or with the
unknown-kind suffix); and the manifest copy and the README/NOTE persistence
block are still attempted (best-effort) regardless of how many items failed. -/
theorem downloadPluginBundle_accounting (itemOk : Nat → Bool)
    (manifestWriteOk pluginFilesOk readmePresent : Bool) (items : List PluginItem) :
    (downloadPluginBundle itemOk manifestWriteOk pluginFilesOk readmePresent items).res.downloadedCount +
      (downloadPluginBundle itemOk manifestWriteOk pluginFilesOk readmePresent items).res.errorCount =
        items.length ∧
    (∀ (i : Nat) (h : i < items.length),
       (KIND_TO_CATEGORY (items.get ⟨i, h⟩).kind = none →
          ((items.get ⟨i, h⟩).path ++ " (unknown kind: " ++ (items.get ⟨i, h⟩).kind ++ ")") ∈
            (downloadPluginBundle itemOk manifestWriteOk pluginFilesOk readmePresent items).res.failedFiles) ∧
       ((KIND_TO_CATEGORY (items.get ⟨i, h⟩).kind).isSome = true → itemOk i = false →
          (items.get ⟨i, h⟩).path ∈
            (downloadPluginBundle itemOk manifestWriteOk pluginFilesOk readmePresent items).res.failedFiles)) ∧
    (downloadPluginBundle itemOk manifestWriteOk pluginFilesOk readmePresent items).manifestSaveAttempted = true ∧
    (downloadPluginBundle itemOk manifestWriteOk pluginFilesOk readmePresent items).readmeNoteSaveAttempted = true := by
  refine ⟨downloadPluginItems_total itemOk items 0, ?_, rfl, rfl⟩
  intro i h
  have hrec := downloadPluginItems_failed_mem itemOk items 0 i h
  simpa using hrec

/-- Witness for C6: five items of which the one at index 2 fails — the
counters sum to five, the failed path is recorded, and the best-effort
persistence steps still run. -/
theorem downloadPluginBundle_accounting_witness :
    (downloadPluginBundle demoItemOk true true true demoItems).res.downloadedCount +
      (downloadPluginBundle demoItemOk true true true demoItems).res.errorCount = 5 ∧
    "skills/broken" ∈ (downloadPluginBundle demoItemOk true true true demoItems).res.failedFiles ∧
    (downloadPluginBundle demoItemOk true true true demoItems).manifestSaveAttempted = true ∧
    (downloadPluginBundle demoItemOk true true true demoItems).readmeNoteSaveAttempted = true :=
  ⟨(downloadPluginBundle_accounting demoItemOk true true true demoItems).1,
   ((downloadPluginBundle_accounting demoItemOk true true true demoItems).2.1 2 (by decide)).2
     (by decide) (by decide),
   (downloadPluginBundle_accounting demoItemOk true true true demoItems).2.2.1,
   (downloadPluginBundle_accounting demoItemOk true true true demoItems).2.2.2⟩

/-- Claim C1 (evaluated on the code): a legacy `items` manifest parses, an
empty `items` array parses with zero items, and a manifest with neither
`items` nor shorthand arrays fails naming `"items"` — but a manifest with a
shorthand `skills` array and no `items` (the repository's own test input,
which the tests expect to parse) is *also* rejected with the `"items"` error:
`parsePluginJson` has no shorthand branch. -/
theorem parsePluginJson_item_set :
    parsePluginJson (some manifestLegacyItems) "plugins/multi-kind" =
      .ok { id := "multi-kind", name := "Multi-Kind Plugin", description := "Plugin with legacy items",
            items := [ { path := "prompts/sample.prompt.md", kind := "prompt" } ] } ∧
    parsePluginJson (some manifestItemsEmpty) "plugins/test-plugin" =
      .ok { id := "test-plugin", name := "Test Plugin", description := "A test plugin", items := [] } ∧
    parsePluginJson (some manifestNoItemSet) "plugins/test-plugin" =
      .error "Failed to parse plugin.json: Invalid plugin.json format: missing or invalid \"items\" array" ∧
    parsePluginJson (some manifestShorthandOnly) "plugins/skills-only" =
      .error "Failed to parse plugin.json: Invalid plugin.json format: missing or invalid \"items\" array" :=
  ⟨by decide, by decide, by decide, by decide⟩

/-- Claim C2 (evaluated on the code): the spec's shorthand-expansion example
(manifest at `plugins/foo` with `skills: ["./skills/bar/"]`) does not yield
the item `{kind: "skill", path: "plugins/foo/skills/bar"}` — `parsePluginJson`
throws the `"items"` validation error instead, because no expansion of
`agents`/`skills` arrays exists in the code. -/
theorem parsePluginJson_shorthand_not_expanded :
    parsePluginJson (some manifestFooShorthand) "plugins/foo" =
      .error "Failed to parse plugin.json: Invalid plugin.json format: missing or invalid \"items\" array" := by
  decide

end GitCopilotTools
